import Mathlib

/-!
Shallow embedding of the frame-processing pipeline of the
people-tracking-counter repository (`tracker.py`): the codec-repair step
`fix_video_codec`, the person-detection filter `get_detections`, the
per-track drawing routine `draw_tracking_info`, and the two orchestration
loops `process_video` and `process_camera` together with their resource
bookkeeping (capture and writer handles, codec-repaired temporary file).

External collaborators that are not part of the repository (OpenCV media
I/O, the ffmpeg subprocess, the YOLO detector, the DeepSort tracker) are
modelled as explicit environment values: which paths decode, how the
transcode subprocess exits, the raw boxes the detector reports per frame,
and the detection-to-track matching the tracker's appearance model
computes per frame.  Confidences and frame rates are rationals; Python
`int()` truncation is modelled exactly.
-/

/-- Outcome of the external `ffmpeg` subprocess launched by
`subprocess.run(..., check=True)`: `none` models exit status 0, while the
`some` values model the raised `CalledProcessError` (non-zero exit) and
`FileNotFoundError` (missing binary). -/
inductive SubErr where
  | nonzeroExit
  | missingBinary
deriving DecidableEq

/-- Media environment seen by `fix_video_codec`: which filesystem paths
currently hold a first-frame-decodable video, and how the external
transcode subprocess behaves. -/
structure CodecWorld where
  readable : String → Bool
  ffmpeg : Option SubErr

/-- Observable side effects of `fix_video_codec`: the one-frame decode
probe, the release of the probe capture, and the ffmpeg invocation. -/
inductive CodecEffect where
  | probeRead (path : String)
  | capRelease (path : String)
  | runFfmpeg (src dst : String)
deriving DecidableEq

/-- Recognizes the transcode effect among `fix_video_codec`'s effects. -/
def isTranscodeEff : CodecEffect → Bool
  | CodecEffect.runFfmpeg _ _ => true
  | _ => false

/-- `fix_video_codec` from `tracker.py` (lines 19-46): open the input and
try to read one frame; if that fails, transcode with ffmpeg (`check=True`,
so an abnormal subprocess exit raises) and return the derived path,
otherwise return the original path unchanged.  A successful transcode
writes a decodable file at `output_path` (spec 4.1: the copy is widely
decodable); the returned flag records whether the transcode ran. -/
def fix_video_codec (w : CodecWorld) (input_path output_path : String) :
    Except SubErr (String × CodecWorld × Bool) × List CodecEffect :=
  let ret := w.readable input_path
  let effs := [CodecEffect.probeRead input_path, CodecEffect.capRelease input_path]
  if ret = false then
    match w.ffmpeg with
    | some e => (Except.error e, effs ++ [CodecEffect.runFfmpeg input_path output_path])
    | none =>
        (Except.ok (output_path,
           { readable := fun p => if p = output_path then true else w.readable p,
             ffmpeg := w.ffmpeg }, true),
         effs ++ [CodecEffect.runFfmpeg input_path output_path])
  else
    (Except.ok (input_path, w, false), effs)

/-- One raw box reported by the YOLO model for a frame: class index,
confidence, and corner-pair coordinates (`box.cls`, `box.conf`,
`box.xyxy`). -/
structure RawBox where
  cls : Nat
  conf : ℚ
  x1 : Int
  y1 : Int
  x2 : Int
  y2 : Int
deriving DecidableEq

/-- A retained detection in the format `([x, y, w, h], conf, "person")`
that `get_detections` hands to the tracker. -/
structure Detection where
  x : Int
  y : Int
  w : Int
  h : Int
  conf : ℚ
  label : String
deriving DecidableEq

/-- Corner-pair to origin+size conversion applied to a retained raw box. -/
def rawToDet (b : RawBox) : Detection :=
  { x := b.x1, y := b.y1, w := b.x2 - b.x1, h := b.y2 - b.y1,
    conf := b.conf, label := "person" }

/-- `get_detections` from `tracker.py` (lines 49-74): keep each raw box
with `cls == 0` (person) and `conf > confidence_threshold`, converting the
corner pair to origin+size form. -/
def get_detections (boxes : List RawBox) (confidence_threshold : ℚ) : List Detection :=
  boxes.foldl
    (fun detections b =>
      if b.cls = 0 ∧ confidence_threshold < b.conf then
        detections ++ [{ x := b.x1, y := b.y1, w := b.x2 - b.x1, h := b.y2 - b.y1,
                         conf := b.conf, label := "person" }]
      else detections)
    []

/-- Confirmation lifecycle of a track (spec 3: tentative → confirmed after
enough consecutive detections, → deleted after enough consecutive
misses). -/
inductive TrackState where
  | tentative
  | confirmed
  | deleted
deriving DecidableEq

/-- Modelled from the spec: a track of the DeepSort multi-object tracker
(package `deep_sort_realtime`, an external collaborator not in this
repository).  Per spec section 3, a track carries a stable identity
assigned once, a confirmation state, and a last-known box; `ltrb` models
`to_ltrb(orig=True)`, which is `none` when the track has no current
original detection. -/
structure DSTrack where
  track_id : Nat
  hits : Nat
  time_since_update : Nat
  state : TrackState
  ltrb : Option (Int × Int × Int × Int)
deriving DecidableEq

/-- `DeepSort(max_age=50, n_init=5)` in `tracker.py` line 16: consecutive
detections needed before a tentative track is confirmed. -/
def n_init : Nat := 5

/-- `DeepSort(max_age=50, n_init=5)` in `tracker.py` line 16: consecutive
misses after which a track is deleted. -/
def max_age : Nat := 50

/-- Whether `track.is_confirmed()` holds. -/
def DSTrack.is_confirmed (trk : DSTrack) : Bool :=
  trk.state == TrackState.confirmed

/-- Modelled from the spec: the detection (if any) that the tracker's
matching assigned to track `tid` this frame.  `assign` is the per-frame
matching computed by the tracker's motion/appearance model, given as an
oracle from detection index to matched track identity. -/
def findMatch (dets : List Detection) (assign : Nat → Option Nat) (tid : Nat) :
    Option Detection :=
  (dets.enum.find? (fun p => assign p.1 = some tid)).map (fun p => p.2)

/-- Modelled from the spec: per-frame update of one existing track.  A
matched track accumulates a hit, resets its miss counter, takes the
detection's box, and becomes confirmed once it has `n_init` consecutive
detections; an unmatched track accumulates a miss, loses its current
original detection, and is deleted once its misses exceed `max_age`. -/
def updateTrack (dets : List Detection) (assign : Nat → Option Nat) (trk : DSTrack) :
    DSTrack :=
  match findMatch dets assign trk.track_id with
  | some d =>
      let hits := trk.hits + 1
      { trk with
        hits := hits, time_since_update := 0,
        ltrb := some (d.x, d.y, d.x + d.w, d.y + d.h),
        state := if trk.state = TrackState.tentative ∧ n_init ≤ hits
                 then TrackState.confirmed else trk.state }
  | none =>
      let tsu := trk.time_since_update + 1
      { trk with
        time_since_update := tsu, ltrb := none,
        state := if max_age < tsu then TrackState.deleted else trk.state }

/-- Whether detection index `i` was matched to some currently live track. -/
def detMatched (st : List DSTrack) (assign : Nat → Option Nat) (i : Nat) : Bool :=
  match assign i with
  | some tid => st.any (fun trk => trk.track_id == tid)
  | none => false

/-- Modelled from the spec: a fresh tentative track spawned for an
unmatched detection. -/
def newTrack (tid : Nat) (d : Detection) : DSTrack :=
  { track_id := tid, hits := 1, time_since_update := 0,
    state := TrackState.tentative, ltrb := some (d.x, d.y, d.x + d.w, d.y + d.h) }

/-- Modelled from the spec: `tracker.update_tracks(detections, frame)` of
the external DeepSort tracker.  Existing tracks are updated against this
frame's matching, deleted tracks are dropped, and each unmatched detection
spawns a fresh tentative track with the next never-reused identity.  The
returned list is the tracker's full track list (tentative entries
included), which is also its state for the next frame. -/
def update_tracks (st : List DSTrack) (nextId : Nat) (dets : List Detection)
    (assign : Nat → Option Nat) : List DSTrack × Nat :=
  let updated := (st.map (updateTrack dets assign)).filter
    (fun trk => trk.state != TrackState.deleted)
  let unmatched := dets.enum.filter (fun p => !(detMatched st assign p.1))
  let created := unmatched.enum.map (fun q => newTrack (nextId + q.1) q.2.2)
  (updated ++ created, nextId + created.length)

/-- One drawing primitive issued by `draw_tracking_info`: the bounding
rectangle and identity label drawn for a track, and the two running
counters rendered on the frame.  The rectangle and label events record
which track they were drawn for. -/
inductive DrawEvent where
  | rect (track_id : Nat) (x1 y1 x2 y2 : Int)
  | idLabel (track_id : Nat) (x : Int) (y : Int)
  | peopleCount (n : Nat)
  | totalUnique (n : Nat)
deriving DecidableEq

/-- Body of the per-track loop of `draw_tracking_info` (`tracker.py`
lines 91-115): skip the track unless `track.is_confirmed()`; otherwise
add its identity to the caller's `active_ids` set and, when
`to_ltrb(orig=True)` is available, draw its rectangle and `ID:` label. -/
def drawStep (acc : Finset ℕ × List DrawEvent) (track : DSTrack) :
    Finset ℕ × List DrawEvent :=
  if !track.is_confirmed then acc
  else
    let a := insert track.track_id acc.1
    match track.ltrb with
    | some (x1, y1, x2, y2) =>
        (a, acc.2 ++ [DrawEvent.rect track.track_id x1 y1 x2 y2,
                      DrawEvent.idLabel track.track_id x1 (y1 - 10)])
    | none => (a, acc.2)

/-- `draw_tracking_info` from `tracker.py` (lines 77-139): run the
per-track loop over all tracks, then render `People Count:` with the size
of `active_ids` and `Total Unique:` with the size of `unique_ids`.
Returns the mutated `active_ids` set and the drawing events in order. -/
def draw_tracking_info (tracks : List DSTrack) (active_ids : Finset ℕ)
    (unique_ids : Finset ℕ) : Finset ℕ × List DrawEvent :=
  let r := tracks.foldl drawStep (active_ids, [])
  (r.1, r.2 ++ [DrawEvent.peopleCount r.1.card, DrawEvent.totalUnique unique_ids.card])

/-- Per-frame input from the external detectors: the raw YOLO boxes for
this frame and the tracker's detection-to-track matching for this frame. -/
structure FrameInput where
  boxes : List RawBox
  assign : Nat → Option Nat

/-- State threaded through the per-frame loop shared by `process_video`
and `process_camera`: the tracker's tracks and next fresh identity, the
`unique_ids` set, the `frame_count` counter, the number of successful
frame reads, and the per-frame drawing logs. -/
structure LoopState where
  tracker : List DSTrack
  nextId : Nat
  unique_ids : Finset ℕ
  frame_count : Nat
  reads : Nat
  logs : List (List DrawEvent)

/-- Loop state before the first frame. -/
def initLoopState : LoopState :=
  { tracker := [], nextId := 1, unique_ids := ∅, frame_count := 0, reads := 0, logs := [] }

/-- The track list `tracker.update_tracks` returns for the current frame. -/
def stepTracks (t : ℚ) (st : LoopState) (inp : FrameInput) : List DSTrack :=
  (update_tracks st.tracker st.nextId (get_detections inp.boxes t) inp.assign).1

/-- The `unique_ids` set after this frame's confirmed-only update loop
(`tracker.py` lines 204-207 and 307-310). -/
def stepUnique (t : ℚ) (st : LoopState) (inp : FrameInput) : Finset ℕ :=
  (stepTracks t st inp).foldl
    (fun u trk => if trk.is_confirmed then insert trk.track_id u else u)
    st.unique_ids

/-- The drawing events of this frame: `draw_tracking_info` called with a
freshly emptied `active_ids` set, this frame's tracks, and the updated
`unique_ids` set. -/
def stepEvents (t : ℚ) (st : LoopState) (inp : FrameInput) : List DrawEvent :=
  (draw_tracking_info (stepTracks t st inp) ∅ (stepUnique t st inp)).2

/-- One iteration of the per-frame loop body (`tracker.py` lines 192-213
and 295-316): increment `frame_count`, run detection, update the tracker,
add confirmed identities to `unique_ids`, and draw onto the frame with a
fresh `active_ids` set. -/
def stepFrame (t : ℚ) (st : LoopState) (inp : FrameInput) : LoopState :=
  let r := update_tracks st.tracker st.nextId (get_detections inp.boxes t) inp.assign
  let unique_ids := r.1.foldl
    (fun u trk => if trk.is_confirmed then insert trk.track_id u else u)
    st.unique_ids
  { tracker := r.1, nextId := r.2, unique_ids := unique_ids,
    frame_count := st.frame_count + 1, reads := st.reads + 1,
    logs := st.logs ++ [(draw_tracking_info r.1 ∅ unique_ids).2] }

/-- The loop state after processing a list of frames in order. -/
def runFrames (t : ℚ) (st : LoopState) (frames : List FrameInput) : LoopState :=
  frames.foldl (stepFrame t) st

/-- The loop state of a `process_video` run over the given frames. -/
def videoRunState (t : ℚ) (frames : List FrameInput) : LoopState :=
  runFrames t initLoopState frames

/-- The `while True` loop of `process_video` (`tracker.py` lines 187-217):
read frames until `cap.read()` fails (end of the list), processing each
one.  `failAt` injects an exception raised while processing the frame with
that (1-based) number; the exception propagates out of the loop with no
further processing. -/
def videoLoop (t : ℚ) (failAt : Option Nat) :
    List FrameInput → LoopState → Except LoopState LoopState
  | [], st => Except.ok st
  | inp :: rest, st =>
      if failAt = some (st.frame_count + 1) then
        Except.error { st with frame_count := st.frame_count + 1, reads := st.reads + 1 }
      else videoLoop t failAt rest (stepFrame t st inp)

/-- The `while frame_count < max_frames` loop of `process_camera`
(`tracker.py` lines 289-321): stop once `frame_count` reaches
`max_frames`; a failed read (end of the list) breaks out early as a soft
stop. -/
def cameraLoop (t : ℚ) (max_frames : Int) :
    List FrameInput → LoopState → LoopState
  | [], st => st
  | inp :: rest, st =>
      if (st.frame_count : Int) < max_frames then
        cameraLoop t max_frames rest (stepFrame t st inp)
      else st

/-- Python `int()` applied to a rational: truncation toward zero. -/
def pyInt (q : ℚ) : Int := Int.tdiv q.num (q.den : Int)

/-- Python `str.replace`, replacing every non-overlapping occurrence of
`pat` left to right; the fuel argument bounds the scan by the string
length. -/
def pyReplaceAux (pat rep : List Char) : Nat → List Char → List Char
  | 0, s => s
  | _ + 1, [] => []
  | fuel + 1, c :: cs =>
      if (c :: cs).take pat.length = pat then
        rep ++ pyReplaceAux pat rep fuel ((c :: cs).drop pat.length)
      else c :: pyReplaceAux pat rep fuel cs

/-- Python `str.replace` on strings. -/
def pyReplace (s pat rep : String) : String :=
  { data := pyReplaceAux pat.data rep.data s.data.length s.data }

/-- Python exceptions that can escape the two processing functions:
ffmpeg's `CalledProcessError` and `FileNotFoundError`, the two
`Exception(...)` raises for unopenable sources, and an injected mid-loop
processing exception. -/
inductive PyErr where
  | calledProcessError
  | fileNotFoundError
  | failedOpenVideo
  | failedOpenCamera (camera_index : Int)
  | injected
deriving DecidableEq

/-- The exception `fix_video_codec` lets escape for each subprocess
failure. -/
def pyErrOfSub : SubErr → PyErr
  | SubErr.nonzeroExit => PyErr.calledProcessError
  | SubErr.missingBinary => PyErr.fileNotFoundError

/-- Resource bookkeeping of one run: whether the output writer was ever
constructed, whether the capture and writer handles were released, and
whether a codec-repaired temporary file was created and later deleted. -/
structure RunLog where
  sinkCreated : Bool
  capReleased : Bool
  outReleased : Bool
  tempCreated : Bool
  tempDeleted : Bool
deriving DecidableEq

/-- The dictionary `process_video` returns. -/
structure VideoResult where
  total_unique_people : Nat
  total_frames : Nat
deriving DecidableEq

/-- The dictionary `process_camera` returns. -/
structure CamResult where
  total_unique_people : Nat
  total_frames : Nat
  duration_seconds : ℚ
deriving DecidableEq

/-- Environment of one `process_video` run: the codec environment, which
paths `cv2.VideoCapture` can open, the per-frame detector and tracker
inputs, and an optionally injected mid-loop exception. -/
structure VideoWorld where
  codec : CodecWorld
  openable : String → Bool
  frames : List FrameInput
  failAt : Option Nat

/-- `process_video` from `tracker.py` (lines 142-234): derive the
`_fixed` path, run the codec-repair step (its exceptions propagate), open
the chosen path (raising `Failed to open video file` if that fails, with
nothing released), create the writer, run the frame loop, and only after
a normal loop exit release both handles and delete the repaired temporary
file when its path differs from the original input. -/
def process_video (input_path output_path : String) (confidence_threshold : ℚ)
    (w : VideoWorld) : Except (PyErr × RunLog) (VideoResult × RunLog) :=
  match (fix_video_codec w.codec input_path (pyReplace output_path ".mp4" "_fixed.mp4")).1 with
  | Except.error e =>
      Except.error (pyErrOfSub e,
        { sinkCreated := false, capReleased := false, outReleased := false,
          tempCreated := false, tempDeleted := false })
  | Except.ok (video_path, _, transcoded) =>
      if w.openable video_path = false then
        Except.error (PyErr.failedOpenVideo,
          { sinkCreated := false, capReleased := false, outReleased := false,
            tempCreated := transcoded, tempDeleted := false })
      else
        match videoLoop confidence_threshold w.failAt w.frames initLoopState with
        | Except.error _ =>
            Except.error (PyErr.injected,
              { sinkCreated := true, capReleased := false, outReleased := false,
                tempCreated := transcoded, tempDeleted := false })
        | Except.ok st =>
            Except.ok ({ total_unique_people := st.unique_ids.card,
                         total_frames := st.frame_count },
              { sinkCreated := true, capReleased := true, outReleased := true,
                tempCreated := transcoded,
                tempDeleted := (video_path != input_path) && transcoded })

/-- Environment of one `process_camera` run: whether the device opens,
the frame rate the device reports, and the per-frame inputs available
before the first read failure. -/
structure CamWorld where
  openable : Bool
  fps : ℚ
  frames : List FrameInput

/-- The effective frame rate: `if fps == 0 or fps is None: fps = 30.0`
(`tracker.py` lines 271-272). -/
def effFps (w : CamWorld) : ℚ :=
  if w.fps = 0 then 30 else w.fps

/-- `max_frames = int(duration_seconds * fps)` (`tracker.py` line 285). -/
def camMaxFrames (duration_seconds : Int) (w : CamWorld) : Int :=
  pyInt ((duration_seconds : ℚ) * effFps w)

/-- The loop state of a `process_camera` run. -/
def cameraFinal (duration_seconds : Int) (t : ℚ) (w : CamWorld) : LoopState :=
  cameraLoop t (camMaxFrames duration_seconds w) w.frames initLoopState

/-- `process_camera` from `tracker.py` (lines 237-334): open the device
(raising `Failed to open camera with index ...` if that fails), default a
zero reported frame rate to 30.0, bound the loop by
`int(duration_seconds * fps)` frames, and on normal exit release both
handles and report `frame_count / fps` as the actual duration.  Camera
mode never creates a repaired temporary file. -/
def process_camera (camera_index : Int) (output_path : String)
    (duration_seconds : Int) (confidence_threshold : ℚ) (w : CamWorld) :
    Except (PyErr × RunLog) (CamResult × RunLog) :=
  if w.openable = false then
    Except.error (PyErr.failedOpenCamera camera_index,
      { sinkCreated := false, capReleased := false, outReleased := false,
        tempCreated := false, tempDeleted := false })
  else
    let st := cameraFinal duration_seconds confidence_threshold w
    Except.ok ({ total_unique_people := st.unique_ids.card,
                 total_frames := st.frame_count,
                 duration_seconds := (st.frame_count : ℚ) / effFps w },
      { sinkCreated := true, capReleased := true, outReleased := true,
        tempCreated := false, tempDeleted := false })

/-- The identities of the confirmed tracks in a track list; the counting
path (`tracker.py` lines 204-207) adds exactly these to `unique_ids`. -/
def confirmedIds (tracks : List DSTrack) : List Nat :=
  (tracks.filter (fun trk => trk.is_confirmed)).map (fun trk => trk.track_id)

/-- The value rendered by the first `People Count:` drawing event, if
any. -/
def renderedCount (evs : List DrawEvent) : Option Nat :=
  evs.findSome? (fun e =>
    match e with
    | DrawEvent.peopleCount n => some n
    | _ => none)

/-- Default frame input used only to total `List.getD` lookups. -/
def noFrame : FrameInput :=
  { boxes := [], assign := fun _ => none }

/-- The tracks computed while processing frame `k` (0-based) of a
`process_video` run. -/
def frameTracksAt (t : ℚ) (frames : List FrameInput) (k : Nat) : List DSTrack :=
  stepTracks t (videoRunState t (frames.take k)) (frames.getD k noFrame)

/-- The counting fold applied to a track list: insert the identity of
every confirmed track into the accumulating set. -/
def foldIds (tracks : List DSTrack) (a : Finset ℕ) : Finset ℕ :=
  tracks.foldl (fun u trk => if trk.is_confirmed then insert trk.track_id u else u) a

/-- The rectangle and label events the per-track drawing loop emits, in
order. -/
def boxEvents : List DSTrack → List DrawEvent
  | [] => []
  | trk :: rest =>
      (if trk.is_confirmed
       then match trk.ltrb with
            | some (x1, y1, x2, y2) =>
                [DrawEvent.rect trk.track_id x1 y1 x2 y2,
                 DrawEvent.idLabel trk.track_id x1 (y1 - 10)]
            | none => []
       else []) ++ boxEvents rest

/-- Well-formedness of the tracker state: identities are pairwise
distinct and below the next fresh identity. -/
def TrackIdsOk (tracks : List DSTrack) (nextId : Nat) : Prop :=
  (tracks.map (fun trk => trk.track_id)).Nodup ∧ ∀ trk ∈ tracks, trk.track_id < nextId

/-- A codec environment in which every path decodes. -/
def cwReadable : CodecWorld := { readable := fun _ => true, ffmpeg := none }

/-- A codec environment for a nonexistent input: the decode probe fails
and ffmpeg, unable to open its input, exits with a non-zero status. -/
def cwMissing : CodecWorld := { readable := fun _ => false, ffmpeg := some SubErr.nonzeroExit }

/-- A video run on a readable input with one detector-empty frame and no
injected failure. -/
def vwOk : VideoWorld :=
  { codec := cwReadable, openable := fun _ => true, frames := [noFrame], failAt := none }

/-- A video run whose input needs (and gets) a codec repair, with an
exception injected while the first frame is being processed. -/
def vwFail : VideoWorld :=
  { codec := { readable := fun _ => false, ffmpeg := none },
    openable := fun _ => true, frames := [noFrame, noFrame], failAt := some 1 }

/-- A video run on a nonexistent input path: the probe fails and the
ffmpeg repair fails. -/
def vwMissing : VideoWorld :=
  { codec := cwMissing, openable := fun _ => true, frames := [], failAt := none }

/-- A camera that opens, reports 1 fps, and delivers two frames. -/
def camW1 : CamWorld := { openable := true, fps := 1, frames := [noFrame, noFrame] }

/-- A camera that opens, reports 3/10 fps, and delivers three frames. -/
def camW3 : CamWorld :=
  { openable := true, fps := 3/10, frames := [noFrame, noFrame, noFrame] }

/-- A tentative (unconfirmed) track with a drawable box. -/
def trkTent : DSTrack :=
  { track_id := 7, hits := 1, time_since_update := 0,
    state := TrackState.tentative, ltrb := some (0, 0, 10, 10) }

/-- A confirmed track with identity 1. -/
def trkConf : DSTrack :=
  { track_id := 1, hits := 5, time_since_update := 0,
    state := TrackState.confirmed, ltrb := some (0, 0, 2, 2) }

/-- A loop state holding the confirmed track `trkConf`. -/
def stConf : LoopState :=
  { tracker := [trkConf], nextId := 2, unique_ids := {1},
    frame_count := 3, reads := 3, logs := [] }

/-- A frame whose single person box the tracker matches to track 1. -/
def inpMatch : FrameInput :=
  { boxes := [{ cls := 0, conf := 9/10, x1 := 0, y1 := 0, x2 := 2, y2 := 2 }],
    assign := fun i => if i = 0 then some 1 else none }

/-- The updated form of `trkConf` after it is matched in `inpMatch`. -/
def trkConf6 : DSTrack :=
  { track_id := 1, hits := 6, time_since_update := 0,
    state := TrackState.confirmed, ltrb := some (0, 0, 2, 2) }

/-- A frame with one person box that the tracker leaves unmatched,
spawning a tentative track. -/
def inpNew : FrameInput :=
  { boxes := [{ cls := 0, conf := 9/10, x1 := 0, y1 := 0, x2 := 2, y2 := 2 }],
    assign := fun _ => none }

/-- A video run whose input is readable (codec repair passes it through)
but which `cv2.VideoCapture` then fails to open. -/
def vwNoOpen : VideoWorld :=
  { codec := cwReadable, openable := fun _ => false, frames := [], failAt := none }

/-- A camera that opens but reports a frame rate of 0. -/
def camW0 : CamWorld := { openable := true, fps := 0, frames := [] }

/-- A camera device that cannot be opened. -/
def camBad : CamWorld := { openable := false, fps := 30, frames := [noFrame] }

/-! ### Detection filter lemmas -/

theorem get_detections_foldl (t : ℚ) (boxes : List RawBox) :
    ∀ acc : List Detection,
      boxes.foldl
        (fun detections b =>
          if b.cls = 0 ∧ t < b.conf then
            detections ++ [{ x := b.x1, y := b.y1, w := b.x2 - b.x1, h := b.y2 - b.y1,
                             conf := b.conf, label := "person" }]
          else detections)
        acc
      = acc ++ (boxes.filter (fun b => decide (b.cls = 0 ∧ t < b.conf))).map rawToDet := by
  induction boxes with
  | nil => intro acc; simp
  | cons b bs ih =>
      intro acc
      by_cases h : b.cls = 0 ∧ t < b.conf
      · simp [h, ih, List.filter_cons, rawToDet]
      · simp [h, ih, List.filter_cons]

theorem get_detections_eq (boxes : List RawBox) (t : ℚ) :
    get_detections boxes t
      = (boxes.filter (fun b => decide (b.cls = 0 ∧ t < b.conf))).map rawToDet := by
  simpa using get_detections_foldl t boxes []

theorem mem_get_detections {boxes : List RawBox} {t : ℚ} {d : Detection}
    (h : d ∈ get_detections boxes t) : t < d.conf ∧ d.label = "person" := by
  rw [get_detections_eq] at h
  rcases List.mem_map.mp h with ⟨b, hb, rfl⟩
  rcases List.mem_filter.mp hb with ⟨_, hcond⟩
  exact ⟨(of_decide_eq_true hcond).2, rfl⟩

theorem get_detections_all_le {boxes : List RawBox} (h : ∀ b ∈ boxes, b.conf ≤ 1) :
    get_detections boxes 1 = [] := by
  rw [get_detections_eq]
  have hf : boxes.filter (fun b => decide (b.cls = 0 ∧ (1 : ℚ) < b.conf)) = [] := by
    rw [List.filter_eq_nil]
    intro b hb
    simp only [decide_eq_true_eq, not_and]
    intro _
    exact not_lt.mpr (h b hb)
  rw [hf, List.map_nil]

/-! ### Drawing lemmas -/

theorem drawFold_eq (tracks : List DSTrack) :
    ∀ (a : Finset ℕ) (evs : List DrawEvent),
      tracks.foldl drawStep (a, evs) = (foldIds tracks a, evs ++ boxEvents tracks) := by
  induction tracks with
  | nil => intro a evs; simp [foldIds, boxEvents]
  | cons trk rest ih =>
      intro a evs
      by_cases h : trk.is_confirmed
      · cases hl : trk.ltrb with
        | none =>
            simp [drawStep, h, hl, ih, foldIds, boxEvents]
        | some q =>
            obtain ⟨x1, y1, x2, y2⟩ := q
            simp [drawStep, h, hl, ih, foldIds, boxEvents]
      · simp [drawStep, h, ih, foldIds, boxEvents, Bool.not_eq_true]

theorem draw_tracking_info_eq (tracks : List DSTrack) (a u : Finset ℕ) :
    draw_tracking_info tracks a u
      = (foldIds tracks a,
         boxEvents tracks
           ++ [DrawEvent.peopleCount (foldIds tracks a).card,
               DrawEvent.totalUnique u.card]) := by
  unfold draw_tracking_info
  rw [drawFold_eq]
  simp

theorem foldIds_eq_union (tracks : List DSTrack) :
    ∀ a : Finset ℕ, foldIds tracks a = a ∪ (confirmedIds tracks).toFinset := by
  induction tracks with
  | nil => intro a; simp [foldIds, confirmedIds]
  | cons trk rest ih =>
      intro a
      by_cases h : trk.is_confirmed
      · have : foldIds (trk :: rest) a = foldIds rest (insert trk.track_id a) := by
          simp [foldIds, h]
        rw [this, ih, confirmedIds]
        simp [List.filter_cons, h, confirmedIds, Finset.union_insert, Finset.insert_union]
      · have : foldIds (trk :: rest) a = foldIds rest a := by
          simp [foldIds, h]
        rw [this, ih, confirmedIds]
        simp [List.filter_cons, h, confirmedIds]

theorem mem_confirmedIds {tracks : List DSTrack} {trk : DSTrack}
    (h1 : trk ∈ tracks) (h2 : trk.is_confirmed = true) :
    trk.track_id ∈ confirmedIds tracks :=
  List.mem_map_of_mem _ (List.mem_filter.mpr ⟨h1, h2⟩)

theorem mem_boxEvents {tracks : List DSTrack} {e : DrawEvent} (h : e ∈ boxEvents tracks) :
    ∃ trk ∈ tracks, trk.is_confirmed = true
      ∧ ∃ x1 y1 x2 y2, trk.ltrb = some (x1, y1, x2, y2)
        ∧ (e = DrawEvent.rect trk.track_id x1 y1 x2 y2
           ∨ e = DrawEvent.idLabel trk.track_id x1 (y1 - 10)) := by
  induction tracks with
  | nil => simp [boxEvents] at h
  | cons trk rest ih =>
      simp only [boxEvents, List.mem_append] at h
      rcases h with h | h
      · by_cases hc : trk.is_confirmed
        · cases hl : trk.ltrb with
          | none => rw [if_pos hc, hl] at h; simp at h
          | some q =>
              obtain ⟨x1, y1, x2, y2⟩ := q
              rw [if_pos hc, hl] at h
              rcases List.mem_pair.mp h with rfl | rfl
              · exact ⟨trk, List.mem_cons_self .., hc, x1, y1, x2, y2, hl, Or.inl rfl⟩
              · exact ⟨trk, List.mem_cons_self .., hc, x1, y1, x2, y2, hl, Or.inr rfl⟩
        · rw [if_neg hc] at h; simp at h
      · rcases ih h with ⟨trk', ht, rest'⟩
        exact ⟨trk', List.mem_cons_of_mem _ ht, rest'⟩

theorem findSome?_none_append {α β : Type} (f : α → Option β) :
    ∀ (l1 l2 : List α), (∀ a ∈ l1, f a = none) →
      (l1 ++ l2).findSome? f = l2.findSome? f := by
  intro l1 l2 h
  induction l1 with
  | nil => simp
  | cons a as ih =>
      rw [List.cons_append, List.findSome?_cons, h a (List.mem_cons_self ..)]
      exact ih (fun x hx => h x (List.mem_cons_of_mem _ hx))

theorem renderedCount_draw (tracks : List DSTrack) (a u : Finset ℕ) :
    renderedCount (draw_tracking_info tracks a u).2 = some (foldIds tracks a).card := by
  rw [draw_tracking_info_eq]
  unfold renderedCount
  rw [findSome?_none_append]
  · rw [List.findSome?_cons]
  · intro e he
    rcases mem_boxEvents he with ⟨trk, _, _, x1, y1, x2, y2, _, rfl | rfl⟩ <;> rfl

/-! ### Per-frame step lemmas -/

theorem stepFrame_tracker (t : ℚ) (st : LoopState) (inp : FrameInput) :
    (stepFrame t st inp).tracker = stepTracks t st inp := rfl

theorem stepFrame_unique (t : ℚ) (st : LoopState) (inp : FrameInput) :
    (stepFrame t st inp).unique_ids = stepUnique t st inp := rfl

theorem stepFrame_frame_count (t : ℚ) (st : LoopState) (inp : FrameInput) :
    (stepFrame t st inp).frame_count = st.frame_count + 1 := rfl

theorem stepFrame_reads (t : ℚ) (st : LoopState) (inp : FrameInput) :
    (stepFrame t st inp).reads = st.reads + 1 := rfl

theorem stepFrame_logs (t : ℚ) (st : LoopState) (inp : FrameInput) :
    (stepFrame t st inp).logs = st.logs ++ [stepEvents t st inp] := rfl

theorem stepUnique_foldIds (t : ℚ) (st : LoopState) (inp : FrameInput) :
    stepUnique t st inp = foldIds (stepTracks t st inp) st.unique_ids := rfl

theorem stepUnique_eq_union (t : ℚ) (st : LoopState) (inp : FrameInput) :
    stepUnique t st inp
      = st.unique_ids ∪ (confirmedIds (stepTracks t st inp)).toFinset := by
  rw [stepUnique_foldIds, foldIds_eq_union]

/-! ### Loop lemmas -/

theorem runFrames_cons (t : ℚ) (st : LoopState) (inp : FrameInput) (rest : List FrameInput) :
    runFrames t st (inp :: rest) = runFrames t (stepFrame t st inp) rest := rfl

theorem runFrames_frame_count (t : ℚ) :
    ∀ (frames : List FrameInput) (st : LoopState),
      (runFrames t st frames).frame_count = st.frame_count + frames.length := by
  intro frames
  induction frames with
  | nil => intro st; simp [runFrames]
  | cons inp rest ih =>
      intro st
      rw [runFrames_cons, ih, stepFrame_frame_count]
      simp; omega

theorem runFrames_reads (t : ℚ) :
    ∀ (frames : List FrameInput) (st : LoopState),
      (runFrames t st frames).reads = st.reads + frames.length := by
  intro frames
  induction frames with
  | nil => intro st; simp [runFrames]
  | cons inp rest ih =>
      intro st
      rw [runFrames_cons, ih, stepFrame_reads]
      simp; omega

theorem runFrames_logs_length (t : ℚ) :
    ∀ (frames : List FrameInput) (st : LoopState),
      (runFrames t st frames).logs.length = st.logs.length + frames.length := by
  intro frames
  induction frames with
  | nil => intro st; simp [runFrames]
  | cons inp rest ih =>
      intro st
      rw [runFrames_cons, ih, stepFrame_logs]
      simp; omega

theorem runFrames_inv (t : ℚ) (P : LoopState → Prop)
    (hstep : ∀ st inp, P st → P (stepFrame t st inp)) :
    ∀ (frames : List FrameInput) (st : LoopState), P st → P (runFrames t st frames) := by
  intro frames
  induction frames with
  | nil => intro st h; exact h
  | cons inp rest ih =>
      intro st h
      rw [runFrames_cons]
      exact ih _ (hstep st inp h)

theorem runFrames_logs_getD (t : ℚ) :
    ∀ (frames : List FrameInput) (st : LoopState) (k : Nat), k < st.logs.length →
      (runFrames t st frames).logs.getD k [] = st.logs.getD k [] := by
  intro frames
  induction frames with
  | nil => intro st k hk; rfl
  | cons inp rest ih =>
      intro st k hk
      rw [runFrames_cons, ih (stepFrame t st inp) k
        (by rw [stepFrame_logs]; simp; omega)]
      rw [stepFrame_logs, List.getD_append _ _ _ _ hk]

theorem runFrames_logs_at (t : ℚ) :
    ∀ (frames : List FrameInput) (st : LoopState) (k : Nat), k < frames.length →
      (runFrames t st frames).logs.getD (st.logs.length + k) []
        = stepEvents t (runFrames t st (frames.take k)) (frames.getD k noFrame) := by
  intro frames
  induction frames with
  | nil => intro st k hk; simp at hk
  | cons inp rest ih =>
      intro st k hk
      cases k with
      | zero =>
          have hlogs : (stepFrame t st inp).logs = st.logs ++ [stepEvents t st inp] :=
            stepFrame_logs t st inp
          have hlen : st.logs.length + 0 < (stepFrame t st inp).logs.length := by
            rw [hlogs]; simp
          rw [runFrames_cons, runFrames_logs_getD t rest _ _ hlen, hlogs]
          simp [List.getD]
          rfl
      | succ k =>
          have hidx : st.logs.length + (k + 1) = (stepFrame t st inp).logs.length + k := by
            rw [stepFrame_logs]; simp; omega
          rw [runFrames_cons, hidx, ih (stepFrame t st inp) k (by simpa using hk),
              List.take_succ_cons, List.getD_cons_succ, runFrames_cons]

theorem videoLoop_ok (t : ℚ) (fa : Option Nat) :
    ∀ (frames : List FrameInput) (st st' : LoopState),
      videoLoop t fa frames st = Except.ok st' → st' = runFrames t st frames := by
  intro frames
  induction frames with
  | nil =>
      intro st st' h
      simp only [videoLoop] at h
      cases h
      rfl
  | cons inp rest ih =>
      intro st st' h
      simp only [videoLoop] at h
      split at h
      · cases h
      · exact (ih _ _ h).trans (runFrames_cons t st inp rest).symm

theorem videoLoop_none (t : ℚ) :
    ∀ (frames : List FrameInput) (st : LoopState),
      videoLoop t none frames st = Except.ok (runFrames t st frames) := by
  intro frames
  induction frames with
  | nil => intro st; rfl
  | cons inp rest ih =>
      intro st
      simp only [videoLoop, runFrames_cons]
      rw [if_neg (by simp)]
      exact ih (stepFrame t st inp)

theorem cameraLoop_eq_runFrames (t : ℚ) (m : Int) :
    ∀ (frames : List FrameInput) (st : LoopState),
      cameraLoop t m frames st = runFrames t st (frames.take (m - st.frame_count).toNat) := by
  intro frames
  induction frames with
  | nil => intro st; simp [cameraLoop, runFrames]
  | cons inp rest ih =>
      intro st
      by_cases h : (st.frame_count : Int) < m
      · rw [cameraLoop, if_pos h, ih]
        have h1 : (m - st.frame_count).toNat
            = (m - (stepFrame t st inp).frame_count).toNat + 1 := by
          rw [stepFrame_frame_count]
          omega
        rw [h1, List.take_succ_cons, runFrames_cons]
      · rw [cameraLoop, if_neg h]
        have h0 : (m - st.frame_count).toNat = 0 := by omega
        rw [h0]
        rfl

theorem cameraFinal_eq (d : Int) (t : ℚ) (w : CamWorld) :
    cameraFinal d t w
      = runFrames t initLoopState (w.frames.take (camMaxFrames d w).toNat) := by
  unfold cameraFinal
  rw [cameraLoop_eq_runFrames]
  norm_num [initLoopState]

theorem cameraFinal_frame_count (d : Int) (t : ℚ) (w : CamWorld) :
    (cameraFinal d t w).frame_count = min (camMaxFrames d w).toNat w.frames.length := by
  rw [cameraFinal_eq, runFrames_frame_count]
  simp [initLoopState]

theorem cameraFinal_reads_eq (d : Int) (t : ℚ) (w : CamWorld) :
    (cameraFinal d t w).reads = (cameraFinal d t w).frame_count := by
  rw [cameraFinal_eq, runFrames_frame_count, runFrames_reads]
  rfl

/-! ### Python `int()` truncation -/

theorem pyInt_eq_floor {q : ℚ} (h : 0 ≤ q) : pyInt q = ⌊q⌋ := by
  unfold pyInt
  rw [Int.tdiv_eq_ediv (Rat.num_nonneg.mpr h) (Int.natCast_nonneg _)]
  exact Rat.floor_def.symm

theorem pyInt_le {q : ℚ} (h : 0 ≤ q) : (pyInt q : ℚ) ≤ q := by
  rw [pyInt_eq_floor h]
  exact_mod_cast Int.floor_le q

theorem lt_pyInt {q : ℚ} (h : 0 ≤ q) : q - 1 < (pyInt q : ℚ) := by
  rw [pyInt_eq_floor h]
  exact_mod_cast Int.sub_one_lt_floor q

theorem pyInt_nonneg {q : ℚ} (h : 0 ≤ q) : 0 ≤ pyInt q := by
  rw [pyInt_eq_floor h]
  exact Int.floor_nonneg.mpr h

/-! ### Run inversion lemmas -/

theorem process_video_ok_loop {i o : String} {t : ℚ} {w : VideoWorld}
    {res : VideoResult} {log : RunLog}
    (h : process_video i o t w = Except.ok (res, log)) :
    ∃ st, videoLoop t w.failAt w.frames initLoopState = Except.ok st
      ∧ res = { total_unique_people := st.unique_ids.card,
                total_frames := st.frame_count } := by
  unfold process_video at h
  split at h
  · exact Except.noConfusion h
  · split at h
    · exact Except.noConfusion h
    · split at h
      · exact Except.noConfusion h
      · rename_i st heq
        refine ⟨st, heq, ?_⟩
        injection h with h1
        cases h1
        rfl

theorem process_video_ok_res {i o : String} {t : ℚ} {w : VideoWorld}
    {res : VideoResult} {log : RunLog}
    (h : process_video i o t w = Except.ok (res, log)) :
    res = { total_unique_people := (videoRunState t w.frames).unique_ids.card,
            total_frames := (videoRunState t w.frames).frame_count } := by
  rcases process_video_ok_loop h with ⟨st, hloop, hres⟩
  rw [hres, videoLoop_ok t w.failAt w.frames initLoopState st hloop]
  rfl

theorem process_video_error_sink {i o : String} {t : ℚ} {w : VideoWorld}
    {e : PyErr} {log : RunLog}
    (h : process_video i o t w = Except.error (e, log)) (hne : e ≠ PyErr.injected) :
    log.sinkCreated = false := by
  unfold process_video at h
  split at h
  · injection h with h1
    cases h1
    rfl
  · split at h
    · injection h with h1
      cases h1
      rfl
    · split at h
      · injection h with h1
        cases h1
        exact absurd rfl hne
      · exact Except.noConfusion h

theorem process_video_transcode_error {i o : String} {t : ℚ} {w : VideoWorld} {e : SubErr}
    (h1 : w.codec.readable i = false) (h2 : w.codec.ffmpeg = some e) :
    process_video i o t w
      = Except.error (pyErrOfSub e,
          { sinkCreated := false, capReleased := false, outReleased := false,
            tempCreated := false, tempDeleted := false }) := by
  have hfix : (fix_video_codec w.codec i (pyReplace o ".mp4" "_fixed.mp4")).1
      = Except.error e := by
    simp [fix_video_codec, h1, h2]
  unfold process_video
  rw [hfix]

theorem process_camera_ok_eq {idx : Int} {o : String} {d : Int} {t : ℚ} {w : CamWorld}
    (h : w.openable = true) :
    process_camera idx o d t w
      = Except.ok ({ total_unique_people := (cameraFinal d t w).unique_ids.card,
                     total_frames := (cameraFinal d t w).frame_count,
                     duration_seconds := ((cameraFinal d t w).frame_count : ℚ) / effFps w },
          { sinkCreated := true, capReleased := true, outReleased := true,
            tempCreated := false, tempDeleted := false }) := by
  unfold process_camera
  rw [if_neg (by rw [h]; simp)]

theorem process_camera_error_eq {idx : Int} {o : String} {d : Int} {t : ℚ} {w : CamWorld}
    (h : w.openable = false) :
    process_camera idx o d t w
      = Except.error (PyErr.failedOpenCamera idx,
          { sinkCreated := false, capReleased := false, outReleased := false,
            tempCreated := false, tempDeleted := false }) := by
  unfold process_camera
  rw [if_pos h]

theorem process_camera_ok_inv {idx : Int} {o : String} {d : Int} {t : ℚ} {w : CamWorld}
    {res : CamResult} {log : RunLog}
    (h : process_camera idx o d t w = Except.ok (res, log)) :
    res = { total_unique_people := (cameraFinal d t w).unique_ids.card,
            total_frames := (cameraFinal d t w).frame_count,
            duration_seconds := ((cameraFinal d t w).frame_count : ℚ) / effFps w } := by
  by_cases hop : w.openable = false
  · rw [process_camera_error_eq hop] at h
    exact Except.noConfusion h
  · have hop' : w.openable = true := by simpa using hop
    rw [process_camera_ok_eq hop'] at h
    injection h with h1
    cases h1
    rfl

theorem process_camera_error_inv {idx : Int} {o : String} {d : Int} {t : ℚ} {w : CamWorld}
    {e : PyErr} {log : RunLog}
    (h : process_camera idx o d t w = Except.error (e, log)) :
    log.sinkCreated = false := by
  by_cases hop : w.openable = false
  · rw [process_camera_error_eq hop] at h
    injection h with h1
    cases h1
    rfl
  · have hop' : w.openable = true := by simpa using hop
    rw [process_camera_ok_eq hop'] at h
    exact Except.noConfusion h

/-! ### Threshold 1.0 runs track nothing -/

theorem update_tracks_nil (n : Nat) (assign : Nat → Option Nat) :
    update_tracks [] n [] assign = ([], n) := rfl

theorem videoLoop_threshold_one {frames : List FrameInput}
    (hconf : ∀ inp ∈ frames, ∀ b ∈ inp.boxes, b.conf ≤ 1) :
    ∀ (fa : Option Nat) (st st' : LoopState), st.tracker = [] → st.unique_ids = ∅ →
      videoLoop 1 fa frames st = Except.ok st' →
      st'.tracker = [] ∧ st'.unique_ids = ∅ := by
  induction frames with
  | nil =>
      intro fa st st' h1 h2 h
      simp only [videoLoop] at h
      cases h
      exact ⟨h1, h2⟩
  | cons inp rest ih =>
      intro fa st st' h1 h2 h
      simp only [videoLoop] at h
      split at h
      · exact Except.noConfusion h
      · have htr : stepTracks 1 st inp = [] := by
          unfold stepTracks
          rw [h1, get_detections_all_le (hconf inp (List.mem_cons_self ..)),
              update_tracks_nil]
        apply ih (fun i hi b hb => hconf i (List.mem_cons_of_mem _ hi) b hb) fa _ st' ?_ ?_ h
        · rw [stepFrame_tracker, htr]
        · rw [stepFrame_unique, stepUnique_foldIds, htr, h2]
          rfl

/-! ### Tracker identity invariants -/

theorem updateTrack_track_id (dets : List Detection) (assign : Nat → Option Nat)
    (trk : DSTrack) : (updateTrack dets assign trk).track_id = trk.track_id := by
  unfold updateTrack
  split <;> rfl

theorem update_tracks_fst (st : List DSTrack) (n : Nat) (dets : List Detection)
    (assign : Nat → Option Nat) :
    (update_tracks st n dets assign).1
      = (st.map (updateTrack dets assign)).filter
          (fun trk => trk.state != TrackState.deleted)
        ++ ((dets.enum.filter (fun p => !(detMatched st assign p.1))).enum.map
             (fun q => newTrack (n + q.1) q.2.2)) := rfl

theorem update_tracks_snd (st : List DSTrack) (n : Nat) (dets : List Detection)
    (assign : Nat → Option Nat) :
    (update_tracks st n dets assign).2
      = n + ((dets.enum.filter (fun p => !(detMatched st assign p.1))).enum.map
             (fun q => newTrack (n + q.1) q.2.2)).length := rfl

theorem update_tracks_map_id (st : List DSTrack) (dets : List Detection)
    (assign : Nat → Option Nat) :
    (st.map (updateTrack dets assign)).map (fun trk => trk.track_id)
      = st.map (fun trk => trk.track_id) := by
  rw [List.map_map]
  exact List.map_congr_left (fun trk _ => updateTrack_track_id dets assign trk)

theorem update_tracks_ids_ok {st : List DSTrack} {n : Nat} (dets : List Detection)
    (assign : Nat → Option Nat) (h : TrackIdsOk st n) :
    TrackIdsOk (update_tracks st n dets assign).1 (update_tracks st n dets assign).2 := by
  obtain ⟨hnd, hlt⟩ := h
  have hupd : List.Sublist
      (((st.map (updateTrack dets assign)).filter
        (fun trk => trk.state != TrackState.deleted)).map (fun trk => trk.track_id))
      (st.map (fun trk => trk.track_id)) := by
    have h1 := List.Sublist.map (fun trk : DSTrack => trk.track_id)
      (List.filter_sublist (l := st.map (updateTrack dets assign))
        (p := fun trk => trk.state != TrackState.deleted))
    rw [update_tracks_map_id] at h1
    exact h1
  have hcr : (((dets.enum.filter (fun p => !(detMatched st assign p.1))).enum.map
        (fun q => newTrack (n + q.1) q.2.2)).map (fun trk => trk.track_id))
      = ((dets.enum.filter (fun p => !(detMatched st assign p.1))).enum.map
          Prod.fst).map (fun j => n + j) := by
    rw [List.map_map, List.map_map]
    rfl
  constructor
  · rw [update_tracks_fst, List.map_append]
    refine List.Nodup.append (hupd.nodup hnd) ?_ ?_
    · rw [hcr]
      exact (List.nodup_enum_map_fst _).map (fun a b hab => by omega)
    · intro x hx1 hx2
      have hxst : x ∈ st.map (fun trk => trk.track_id) := hupd.subset hx1
      rcases List.mem_map.mp hxst with ⟨trk, htrk, rfl⟩
      have hxn : trk.track_id < n := hlt trk htrk
      rw [hcr] at hx2
      rcases List.mem_map.mp hx2 with ⟨j, _, hj⟩
      omega
  · intro trk htrk
    rw [update_tracks_snd]
    rw [update_tracks_fst, List.mem_append] at htrk
    rcases htrk with htrk | htrk
    · have : trk.track_id ∈ st.map (fun t' => t'.track_id) :=
        hupd.subset (List.mem_map_of_mem _ htrk)
      rcases List.mem_map.mp this with ⟨trk', htrk', hid⟩
      have := hlt trk' htrk'
      omega
    · rcases List.mem_map.mp htrk with ⟨q, hq, rfl⟩
      have hq1 : q.1 < (dets.enum.filter (fun p => !(detMatched st assign p.1))).length := by
        have := (List.mem_enum_iff_getElem?).mp hq
        rcases List.getElem?_eq_some.mp this with ⟨hlen, _⟩
        exact hlen
      simp only [newTrack, List.length_map, List.enum_length]
      omega

theorem stepFrame_nextId (t : ℚ) (st : LoopState) (inp : FrameInput) :
    (stepFrame t st inp).nextId
      = (update_tracks st.tracker st.nextId (get_detections inp.boxes t) inp.assign).2 := rfl

theorem stepFrame_ids_ok (t : ℚ) (st : LoopState) (inp : FrameInput)
    (h : TrackIdsOk st.tracker st.nextId) :
    TrackIdsOk (stepFrame t st inp).tracker (stepFrame t st inp).nextId := by
  rw [stepFrame_tracker, stepFrame_nextId]
  exact update_tracks_ids_ok _ _ h

theorem videoRunState_ids_ok (t : ℚ) (frames : List FrameInput) :
    TrackIdsOk (videoRunState t frames).tracker (videoRunState t frames).nextId := by
  unfold videoRunState
  refine runFrames_inv t (fun st => TrackIdsOk st.tracker st.nextId)
    (fun st inp h => stepFrame_ids_ok t st inp h) frames initLoopState ?_
  exact ⟨List.nodup_nil, by simp [initLoopState]⟩

theorem frameTracksAt_ids_nodup (t : ℚ) (frames : List FrameInput) (k : Nat) :
    ((frameTracksAt t frames k).map (fun trk => trk.track_id)).Nodup := by
  unfold frameTracksAt stepTracks
  exact (update_tracks_ids_ok _ _ (videoRunState_ids_ok t (frames.take k))).1

theorem confirmedIds_nodup {tracks : List DSTrack}
    (h : (tracks.map (fun trk => trk.track_id)).Nodup) : (confirmedIds tracks).Nodup := by
  have hsub : List.Sublist (confirmedIds tracks) (tracks.map (fun trk => trk.track_id)) :=
    List.Sublist.map _ (List.filter_sublist tracks)
  exact hsub.nodup h

theorem confirmedIds_toFinset_card {tracks : List DSTrack}
    (h : (tracks.map (fun trk => trk.track_id)).Nodup) :
    (confirmedIds tracks).toFinset.card = (confirmedIds tracks).length :=
  List.toFinset_card_of_nodup (confirmedIds_nodup h)

/-! ### Rendered count of a frame -/

theorem stepEvents_renderedCount (t : ℚ) (st : LoopState) (inp : FrameInput) :
    renderedCount (stepEvents t st inp)
      = some ((confirmedIds (stepTracks t st inp)).toFinset.card) := by
  unfold stepEvents
  rw [renderedCount_draw, foldIds_eq_union]
  simp

theorem videoRunState_logs_at (t : ℚ) (frames : List FrameInput) (k : Nat)
    (hk : k < frames.length) :
    (videoRunState t frames).logs.getD k []
      = stepEvents t (videoRunState t (frames.take k)) (frames.getD k noFrame) := by
  have h := runFrames_logs_at t frames initLoopState k hk
  simpa [initLoopState, videoRunState] using h

theorem process_video_open_failure {i o : String} {t : ℚ} {w : VideoWorld}
    {vp : String} {w1 : CodecWorld} {tr : Bool}
    (hfix : (fix_video_codec w.codec i (pyReplace o ".mp4" "_fixed.mp4")).1
      = Except.ok (vp, w1, tr))
    (hopen : w.openable vp = false) :
    process_video i o t w
      = Except.error (PyErr.failedOpenVideo,
          { sinkCreated := false, capReleased := false, outReleased := false,
            tempCreated := tr, tempDeleted := false }) := by
  unfold process_video
  rw [hfix]
  simp only []
  rw [if_pos hopen]

/-! ### Claims -/

/-- C1: in every run (`process_video` or `process_camera`) the
`unique_ids` set only grows: each frame's update leaves it a subset of the
next one, so its size is monotonically non-decreasing frame-over-frame; a
confirmed track's identity is added the frame it appears confirmed and,
the update being a pure insertion, no identity is ever removed afterward
(even if the tracker later deletes the track); and the reported
`total_unique_people` is exactly the final size of this set. -/
theorem c1_unique_set_monotone :
    (∀ (t : ℚ) (st : LoopState) (inp : FrameInput),
        st.unique_ids ⊆ (stepFrame t st inp).unique_ids)
    ∧ (∀ (t : ℚ) (st : LoopState) (inp : FrameInput),
        st.unique_ids.card ≤ (stepFrame t st inp).unique_ids.card)
    ∧ (∀ (t : ℚ) (st : LoopState) (inp : FrameInput) (trk : DSTrack),
        trk ∈ stepTracks t st inp → trk.is_confirmed = true →
        trk.track_id ∈ (stepFrame t st inp).unique_ids)
    ∧ (∀ (i o : String) (t : ℚ) (w : VideoWorld) (res : VideoResult) (log : RunLog),
        process_video i o t w = Except.ok (res, log) →
        res.total_unique_people = (videoRunState t w.frames).unique_ids.card)
    ∧ (∀ (idx : Int) (o : String) (d : Int) (t : ℚ) (w : CamWorld)
          (res : CamResult) (log : RunLog),
        process_camera idx o d t w = Except.ok (res, log) →
        res.total_unique_people = (cameraFinal d t w).unique_ids.card) := by
  refine ⟨?_, ?_, ?_, ?_, ?_⟩
  · intro t st inp
    rw [stepFrame_unique, stepUnique_eq_union]
    exact Finset.subset_union_left
  · intro t st inp
    apply Finset.card_le_card
    rw [stepFrame_unique, stepUnique_eq_union]
    exact Finset.subset_union_left
  · intro t st inp trk hmem hconf
    rw [stepFrame_unique, stepUnique_eq_union]
    exact Finset.mem_union_right _ (List.mem_toFinset.mpr (mem_confirmedIds hmem hconf))
  · intro i o t w res log h
    rw [process_video_ok_res h]
  · intro idx o d t w res log h
    rw [process_camera_ok_inv h]

/-- C1 witness: the monotonicity, confirmed-insertion, and final-report
clauses evaluated on concrete runs. -/
theorem c1_unique_set_monotone_witness :
    initLoopState.unique_ids ⊆ (stepFrame (1/2) initLoopState inpNew).unique_ids
    ∧ initLoopState.unique_ids.card ≤ (stepFrame (1/2) initLoopState inpNew).unique_ids.card
    ∧ trkConf6.track_id ∈ (stepFrame (1/2) stConf inpMatch).unique_ids
    ∧ ({ total_unique_people := 0, total_frames := 1 } : VideoResult).total_unique_people
        = (videoRunState (1/2) vwOk.frames).unique_ids.card
    ∧ ({ total_unique_people := 0, total_frames := 2,
         duration_seconds := 2 } : CamResult).total_unique_people
        = (cameraFinal 5 (1/2) camW1).unique_ids.card := by
  refine ⟨c1_unique_set_monotone.1 (1/2) initLoopState inpNew,
    c1_unique_set_monotone.2.1 (1/2) initLoopState inpNew,
    c1_unique_set_monotone.2.2.1 (1/2) stConf inpMatch trkConf6 ?_ ?_,
    c1_unique_set_monotone.2.2.2.1 "in.mp4" "out.mp4" (1/2) vwOk
      { total_unique_people := 0, total_frames := 1 }
      { sinkCreated := true, capReleased := true, outReleased := true,
        tempCreated := false, tempDeleted := false } ?_,
    c1_unique_set_monotone.2.2.2.2 0 "o.mp4" 5 (1/2) camW1
      { total_unique_people := 0, total_frames := 2, duration_seconds := 2 }
      { sinkCreated := true, capReleased := true, outReleased := true,
        tempCreated := false, tempDeleted := false } ?_⟩
  · rw [show stepTracks (1/2) stConf inpMatch = [trkConf6] from by with_unfolding_all rfl]
    exact List.mem_singleton_self _
  · rfl
  · with_unfolding_all rfl
  · with_unfolding_all rfl

/-- C2: `get_detections` retains exactly the raw boxes whose class is the
person class and whose confidence is strictly greater than the threshold
(every retained detection satisfies `t < conf`, so a detection with
confidence exactly `t` is dropped); consequently a `process_video` run at
threshold 1.0 over frames whose raw confidences are all at most 1 reports
`total_unique_people = 0`. -/
theorem c2_detection_filter :
    (∀ (boxes : List RawBox) (t : ℚ),
        get_detections boxes t
          = (boxes.filter (fun b => decide (b.cls = 0 ∧ t < b.conf))).map rawToDet)
    ∧ (∀ (boxes : List RawBox) (t : ℚ) (d : Detection),
        d ∈ get_detections boxes t → t < d.conf ∧ d.label = "person")
    ∧ (∀ (i o : String) (w : VideoWorld) (res : VideoResult) (log : RunLog),
        (∀ inp ∈ w.frames, ∀ b ∈ inp.boxes, b.conf ≤ 1) →
        process_video i o 1 w = Except.ok (res, log) →
        res.total_unique_people = 0) := by
  refine ⟨get_detections_eq, fun _ _ _ h => mem_get_detections h, ?_⟩
  intro i o w res log hconf h
  rcases process_video_ok_loop h with ⟨st, hloop, hres⟩
  have hempty := videoLoop_threshold_one hconf w.failAt initLoopState st rfl rfl hloop
  rw [hres]
  show st.unique_ids.card = 0
  rw [hempty.2]
  rfl

/-- C2 witness: the filter characterization, the strict-threshold
membership property, and the threshold-1.0 run evaluated concretely. -/
theorem c2_detection_filter_witness :
    (get_detections inpNew.boxes (1/2)
      = ((inpNew.boxes.filter (fun b => decide (b.cls = 0 ∧ (1/2 : ℚ) < b.conf))).map rawToDet))
    ∧ ((1/2 : ℚ) < (rawToDet { cls := 0, conf := 9/10, x1 := 0, y1 := 0, x2 := 2, y2 := 2 }).conf
        ∧ (rawToDet { cls := 0, conf := 9/10, x1 := 0, y1 := 0, x2 := 2, y2 := 2 }).label
            = "person")
    ∧ ({ total_unique_people := 0, total_frames := 1 } : VideoResult).total_unique_people = 0 := by
  refine ⟨c2_detection_filter.1 inpNew.boxes (1/2),
    c2_detection_filter.2.1 inpNew.boxes (1/2) _ ?_,
    c2_detection_filter.2.2 "in.mp4" "out.mp4" vwOk _
      { sinkCreated := true, capReleased := true, outReleased := true,
        tempCreated := false, tempDeleted := false } ?_ ?_⟩
  · rw [show get_detections inpNew.boxes (1/2)
        = [rawToDet { cls := 0, conf := 9/10, x1 := 0, y1 := 0, x2 := 2, y2 := 2 }] from by
      with_unfolding_all rfl]
    exact List.mem_singleton_self _
  · intro inp hinp b hb
    simp [vwOk, noFrame] at hinp
    subst hinp
    simp [noFrame] at hb
  · with_unfolding_all rfl

/-- C3 counterexample: with a camera reporting 3/10 fps and
`duration_seconds = 5`, the product is 3/2 but `max_frames = int(3/2) = 1`,
so the loop stops after frame 1 — with two frames still available — even
though `1 >= 5 * (3/10)` is false.  The loop therefore does not stop "as
soon as frameCount >= duration_seconds * effectiveFrameRate": it stops one
frame earlier whenever the product is fractional. -/
theorem c3_counterexample :
    process_camera 0 "o.mp4" 5 (35/100) camW3
      = Except.ok ({ total_unique_people := 0, total_frames := 1,
                     duration_seconds := 10/3 },
          { sinkCreated := true, capReleased := true, outReleased := true,
            tempCreated := false, tempDeleted := false })
    ∧ camW3.frames.length = 3
    ∧ ¬ ((1 : ℚ) ≥ (5 : ℚ) * effFps camW3) := by
  refine ⟨by with_unfolding_all rfl, rfl, ?_⟩
  rw [show effFps camW3 = 3/10 from by with_unfolding_all rfl]
  norm_num

/-- C3 (amended): in camera mode the loop is bounded by
`max_frames = int(duration_seconds * effectiveFrameRate)` — the product
truncated by Python `int()` — where the effective rate falls back to 30.0
when the source reports 0; the loop stops at frame `max_frames` (or
earlier on read failure), which is one frame before the un-truncated
condition `frameCount >= duration_seconds * effectiveFrameRate` whenever
the product is fractional; with `duration_seconds = 5` and a source
reporting 0 the bound is exactly 150; and the result's
`duration_seconds` equals `frameCount / effectiveFrameRate`. -/
theorem c3_camera_stop_amended :
    (∀ (idx : Int) (o : String) (d : Int) (t : ℚ) (w : CamWorld), w.openable = true →
        process_camera idx o d t w
          = Except.ok ({ total_unique_people := (cameraFinal d t w).unique_ids.card,
                         total_frames := (cameraFinal d t w).frame_count,
                         duration_seconds :=
                           ((cameraFinal d t w).frame_count : ℚ) / effFps w },
              { sinkCreated := true, capReleased := true, outReleased := true,
                tempCreated := false, tempDeleted := false }))
    ∧ (∀ (d : Int) (t : ℚ) (w : CamWorld),
        (cameraFinal d t w).frame_count = min (camMaxFrames d w).toNat w.frames.length)
    ∧ (∀ w : CamWorld, w.fps = 0 → effFps w = 30 ∧ camMaxFrames 5 w = 150) := by
  refine ⟨fun idx o d t w h => process_camera_ok_eq h, cameraFinal_frame_count, ?_⟩
  intro w h
  have heff : effFps w = 30 := by
    unfold effFps
    rw [if_pos h]
  refine ⟨heff, ?_⟩
  unfold camMaxFrames
  rw [heff]
  have h150 : ((5 : Int) : ℚ) * 30 = 150 := by norm_num
  rw [h150, pyInt_eq_floor (by norm_num)]
  norm_num

/-- C3 witness: the amended stop-condition clauses evaluated on concrete
cameras. -/
theorem c3_camera_stop_amended_witness :
    process_camera 0 "o.mp4" 2 (1/2) camW1
      = Except.ok ({ total_unique_people := (cameraFinal 2 (1/2) camW1).unique_ids.card,
                     total_frames := (cameraFinal 2 (1/2) camW1).frame_count,
                     duration_seconds :=
                       ((cameraFinal 2 (1/2) camW1).frame_count : ℚ) / effFps camW1 },
          { sinkCreated := true, capReleased := true, outReleased := true,
            tempCreated := false, tempDeleted := false })
    ∧ (cameraFinal 2 (1/2) camW1).frame_count
        = min (camMaxFrames 2 camW1).toNat camW1.frames.length
    ∧ (effFps camW0 = 30 ∧ camMaxFrames 5 camW0 = 150) :=
  ⟨c3_camera_stop_amended.1 0 "o.mp4" 2 (1/2) camW1 rfl,
   c3_camera_stop_amended.2.1 2 (1/2) camW1,
   c3_camera_stop_amended.2.2 camW0 rfl⟩

/-- C4: `process_video` has no `try/finally` around its frame loop, so an
exception injected while frame 1 of a codec-repaired input is being
processed propagates with the capture and writer handles unreleased and
the `_fixed` temporary file still on disk — the claimed
cleanup-on-every-exit-path does not happen (the spec's sections 5 and 7
require release of both handles and temp-file deletion before the error
propagates). -/
theorem c4_no_cleanup_on_exception :
    process_video "in.avi" "out.mp4" (35/100) vwFail
      = Except.error (PyErr.injected,
          { sinkCreated := true, capReleased := false, outReleased := false,
            tempCreated := true, tempDeleted := false }) := by
  with_unfolding_all rfl

/-- C5: the codec-repair step is pass-through on readable input — it
returns the original path with the environment unchanged and without
running ffmpeg — and running it a second time on the world the first run
returned gives the same pass-through result. -/
theorem c5_codec_passthrough (w : CodecWorld) (i o : String)
    (h : w.readable i = true) :
    (fix_video_codec w i o).1 = Except.ok (i, w, false)
    ∧ (∀ e ∈ (fix_video_codec w i o).2, isTranscodeEff e = false)
    ∧ (∀ w1 : CodecWorld, (fix_video_codec w i o).1 = Except.ok (i, w1, false) →
        (fix_video_codec w1 i o).1 = Except.ok (i, w1, false)
        ∧ ∀ e ∈ (fix_video_codec w1 i o).2, isTranscodeEff e = false) := by
  have h1 : (fix_video_codec w i o).1 = Except.ok (i, w, false) := by
    simp [fix_video_codec, h]
  have h2 : ∀ e ∈ (fix_video_codec w i o).2, isTranscodeEff e = false := by
    intro e he
    simp only [fix_video_codec, h] at he
    norm_num at he
    rcases he with rfl | rfl <;> rfl
  refine ⟨h1, h2, ?_⟩
  intro w1 hw1
  rw [h1] at hw1
  injection hw1 with hval
  have hw : w1 = w := congrArg (fun p => p.2.1) hval.symm
  subst hw
  exact ⟨h1, h2⟩

/-- C5 witness: pass-through and transcode-free effects on a concrete
readable world, twice. -/
theorem c5_codec_passthrough_witness :
    (fix_video_codec cwReadable "in.mp4" "out_fixed.mp4").1
      = Except.ok ("in.mp4", cwReadable, false)
    ∧ (∀ e ∈ (fix_video_codec cwReadable "in.mp4" "out_fixed.mp4").2,
        isTranscodeEff e = false)
    ∧ ((fix_video_codec cwReadable "in.mp4" "out_fixed.mp4").1
          = Except.ok ("in.mp4", cwReadable, false)
        ∧ ∀ e ∈ (fix_video_codec cwReadable "in.mp4" "out_fixed.mp4").2,
            isTranscodeEff e = false) := by
  have h := c5_codec_passthrough cwReadable "in.mp4" "out_fixed.mp4" rfl
  exact ⟨h.1, h.2.1, h.2.2 cwReadable h.1⟩

/-- C6: when the probe fails and the transcode subprocess fails (non-zero
exit or missing binary), `fix_video_codec` raises that error to its
caller: exactly one ffmpeg invocation happens (no retry), no path is
returned, and `process_video` propagates the same exception as a fatal
error before any resource is created. -/
theorem c6_transcode_failure (w : CodecWorld) (i o : String) (e : SubErr)
    (h1 : w.readable i = false) (h2 : w.ffmpeg = some e) :
    (fix_video_codec w i o).1 = Except.error e
    ∧ ((fix_video_codec w i o).2.filter isTranscodeEff).length = 1
    ∧ (∀ (vw : VideoWorld) (t : ℚ) (op : String), vw.codec = w →
        process_video i op t vw
          = Except.error (pyErrOfSub e,
              { sinkCreated := false, capReleased := false, outReleased := false,
                tempCreated := false, tempDeleted := false })) := by
  refine ⟨?_, ?_, ?_⟩
  · simp [fix_video_codec, h1, h2]
  · simp [fix_video_codec, h1, h2, isTranscodeEff]
  · intro vw t op hc
    apply process_video_transcode_error
    · rw [hc]; exact h1
    · rw [hc]; exact h2

/-- C6 witness: the transcode-failure propagation on a concrete
unreadable world whose ffmpeg exits non-zero. -/
theorem c6_transcode_failure_witness :
    (fix_video_codec cwMissing "nofile.mp4" "out_fixed.mp4").1
      = Except.error SubErr.nonzeroExit
    ∧ ((fix_video_codec cwMissing "nofile.mp4" "out_fixed.mp4").2.filter
        isTranscodeEff).length = 1
    ∧ process_video "nofile.mp4" "out.mp4" (35/100) vwMissing
        = Except.error (pyErrOfSub SubErr.nonzeroExit,
            { sinkCreated := false, capReleased := false, outReleased := false,
              tempCreated := false, tempDeleted := false }) := by
  have h := c6_transcode_failure cwMissing "nofile.mp4" "out_fixed.mp4"
    SubErr.nonzeroExit rfl rfl
  exact ⟨h.1, h.2.1, h.2.2 vwMissing (35/100) "out.mp4" rfl⟩

/-- C7 counterexample: opening a nonexistent file path does not fail with
the `SourceUnavailable` exception (`Failed to open video file`): the
failed one-frame probe routes it into the ffmpeg repair, whose non-zero
exit raises `CalledProcessError` — the spec's `TranscodeFailure` — before
the open check is ever reached.  No output writer is created. -/
theorem c7_counterexample :
    process_video "nofile.mp4" "out.mp4" (35/100) vwMissing
      = Except.error (PyErr.calledProcessError,
          { sinkCreated := false, capReleased := false, outReleased := false,
            tempCreated := false, tempDeleted := false })
    ∧ PyErr.calledProcessError ≠ PyErr.failedOpenVideo :=
  ⟨by with_unfolding_all rfl, by decide⟩

/-- C7 (amended): every failure to acquire the source happens before the
Frame Sink is constructed, so no output file is produced: an invalid
camera index fails with the `SourceUnavailable` exception
(`Failed to open camera ...`), a file path that passes codec repair but
cannot be opened fails with `Failed to open video file`, but a
nonexistent file path fails earlier, inside the codec-repair step, with
the transcode error (`CalledProcessError`/`FileNotFoundError`) rather
than `SourceUnavailable`. -/
theorem c7_open_failure_amended :
    (∀ (i o : String) (t : ℚ) (w : VideoWorld) (e : PyErr) (log : RunLog),
        process_video i o t w = Except.error (e, log) → e ≠ PyErr.injected →
        log.sinkCreated = false)
    ∧ (∀ (idx : Int) (o : String) (d : Int) (t : ℚ) (w : CamWorld),
        w.openable = false →
        process_camera idx o d t w
          = Except.error (PyErr.failedOpenCamera idx,
              { sinkCreated := false, capReleased := false, outReleased := false,
                tempCreated := false, tempDeleted := false }))
    ∧ (∀ (idx : Int) (o : String) (d : Int) (t : ℚ) (w : CamWorld)
          (e : PyErr) (log : RunLog),
        process_camera idx o d t w = Except.error (e, log) → log.sinkCreated = false)
    ∧ (∀ (i o : String) (t : ℚ) (w : VideoWorld) (vp : String) (w1 : CodecWorld)
          (tr : Bool),
        (fix_video_codec w.codec i (pyReplace o ".mp4" "_fixed.mp4")).1
          = Except.ok (vp, w1, tr) →
        w.openable vp = false →
        process_video i o t w
          = Except.error (PyErr.failedOpenVideo,
              { sinkCreated := false, capReleased := false, outReleased := false,
                tempCreated := tr, tempDeleted := false }))
    ∧ (∀ (i o : String) (t : ℚ) (w : VideoWorld) (e : SubErr),
        w.codec.readable i = false → w.codec.ffmpeg = some e →
        process_video i o t w
          = Except.error (pyErrOfSub e,
              { sinkCreated := false, capReleased := false, outReleased := false,
                tempCreated := false, tempDeleted := false })) := by
  refine ⟨?_, ?_, ?_, ?_, ?_⟩
  · intro i o t w e log h hne
    exact process_video_error_sink h hne
  · intro idx o d t w h
    exact process_camera_error_eq h
  · intro idx o d t w e log h
    exact process_camera_error_inv h
  · intro i o t w vp w1 tr hfix hopen
    exact process_video_open_failure hfix hopen
  · intro i o t w e h1 h2
    exact process_video_transcode_error h1 h2

/-- C7 witness: the no-sink-on-failure clauses evaluated on a
nonexistent file and an unopenable camera. -/
theorem c7_open_failure_amended_witness :
    ({ sinkCreated := false, capReleased := false, outReleased := false,
       tempCreated := false, tempDeleted := false } : RunLog).sinkCreated = false
    ∧ process_camera 1 "o.mp4" 30 (35/100) camBad
        = Except.error (PyErr.failedOpenCamera 1,
            { sinkCreated := false, capReleased := false, outReleased := false,
              tempCreated := false, tempDeleted := false })
    ∧ process_video "bad.mp4" "out.mp4" (35/100) vwNoOpen
        = Except.error (PyErr.failedOpenVideo,
            { sinkCreated := false, capReleased := false, outReleased := false,
              tempCreated := false, tempDeleted := false })
    ∧ process_video "nofile.mp4" "o.mp4" (35/100) vwMissing
        = Except.error (pyErrOfSub SubErr.nonzeroExit,
            { sinkCreated := false, capReleased := false, outReleased := false,
              tempCreated := false, tempDeleted := false }) := by
  refine ⟨c7_open_failure_amended.1 "nofile.mp4" "o.mp4" (35/100) vwMissing
      PyErr.calledProcessError _ ?_ (by decide),
    c7_open_failure_amended.2.1 1 "o.mp4" 30 (35/100) camBad rfl,
    c7_open_failure_amended.2.2.2.1 "bad.mp4" "out.mp4" (35/100) vwNoOpen
      "bad.mp4" cwReadable false ?_ rfl,
    c7_open_failure_amended.2.2.2.2 "nofile.mp4" "o.mp4" (35/100) vwMissing
      SubErr.nonzeroExit rfl rfl⟩
  · with_unfolding_all rfl
  · with_unfolding_all rfl

/-- C8: the reported `total_frames` equals the number of successful frame
reads before the stop condition (end-of-stream for files, read failure or
the duration bound for cameras); in duration-bounded camera mode with no
early read failure and a non-negative duration-rate product, it is within
one frame of `duration_seconds * effectiveFrameRate` (the truncation
satisfies `product - 1 < total_frames <= product`). -/
theorem c8_total_frames :
    (∀ (i o : String) (t : ℚ) (w : VideoWorld) (res : VideoResult) (log : RunLog),
        process_video i o t w = Except.ok (res, log) →
        res.total_frames = (videoRunState t w.frames).reads
        ∧ res.total_frames = w.frames.length)
    ∧ (∀ (idx : Int) (o : String) (d : Int) (t : ℚ) (w : CamWorld)
          (res : CamResult) (log : RunLog),
        process_camera idx o d t w = Except.ok (res, log) →
        res.total_frames = (cameraFinal d t w).reads
        ∧ ((camMaxFrames d w).toNat ≤ w.frames.length →
            0 ≤ (d : ℚ) * effFps w →
            (d : ℚ) * effFps w - 1 < (res.total_frames : ℚ)
            ∧ (res.total_frames : ℚ) ≤ (d : ℚ) * effFps w)) := by
  constructor
  · intro i o t w res log h
    rw [process_video_ok_res h]
    constructor
    · show (videoRunState t w.frames).frame_count = (videoRunState t w.frames).reads
      unfold videoRunState
      rw [runFrames_frame_count, runFrames_reads]
      simp [initLoopState]
    · show (videoRunState t w.frames).frame_count = w.frames.length
      unfold videoRunState
      rw [runFrames_frame_count]
      simp [initLoopState]
  · intro idx o d t w res log h
    rw [process_camera_ok_inv h]
    refine ⟨(cameraFinal_reads_eq d t w).symm, ?_⟩
    intro hlen hnn
    have hcount : (cameraFinal d t w).frame_count = (camMaxFrames d w).toNat := by
      rw [cameraFinal_frame_count]
      omega
    have h0 : 0 ≤ camMaxFrames d w := pyInt_nonneg hnn
    have hc : (((camMaxFrames d w).toNat : ℚ)) = ((camMaxFrames d w : Int) : ℚ) := by
      have hz := Int.toNat_of_nonneg h0
      exact_mod_cast congrArg (fun z : Int => (z : ℚ)) hz
    show (d : ℚ) * effFps w - 1 < (((cameraFinal d t w).frame_count : ℚ))
      ∧ (((cameraFinal d t w).frame_count : ℚ)) ≤ (d : ℚ) * effFps w
    rw [hcount, hc]
    exact ⟨lt_pyInt hnn, pyInt_le hnn⟩

/-- C8 witness: frame accounting evaluated on a concrete video run and a
concrete duration-bounded camera run. -/
theorem c8_total_frames_witness :
    (({ total_unique_people := 0, total_frames := 1 } : VideoResult).total_frames
        = (videoRunState (1/2) vwOk.frames).reads
      ∧ ({ total_unique_people := 0, total_frames := 1 } : VideoResult).total_frames
        = vwOk.frames.length)
    ∧ ({ total_unique_people := 0, total_frames := 2,
         duration_seconds := 2 } : CamResult).total_frames
        = (cameraFinal 2 (1/2) camW1).reads
    ∧ ((2 : Int) : ℚ) * effFps camW1 - 1
        < (({ total_unique_people := 0, total_frames := 2,
              duration_seconds := 2 } : CamResult).total_frames : ℚ)
    ∧ (({ total_unique_people := 0, total_frames := 2,
          duration_seconds := 2 } : CamResult).total_frames : ℚ)
        ≤ ((2 : Int) : ℚ) * effFps camW1 := by
  have hv := c8_total_frames.1 "in.mp4" "out.mp4" (1/2) vwOk
    { total_unique_people := 0, total_frames := 1 }
    { sinkCreated := true, capReleased := true, outReleased := true,
      tempCreated := false, tempDeleted := false } (by with_unfolding_all rfl)
  have hc := c8_total_frames.2 0 "o.mp4" 2 (1/2) camW1
    { total_unique_people := 0, total_frames := 2, duration_seconds := 2 }
    { sinkCreated := true, capReleased := true, outReleased := true,
      tempCreated := false, tempDeleted := false } (by with_unfolding_all rfl)
  have hb := hc.2 (by with_unfolding_all rfl)
    (by rw [show effFps camW1 = 1 from by with_unfolding_all rfl]; norm_num)
  exact ⟨hv, hc.1, hb.1, hb.2⟩

/-- C9 counterexample: on a concrete unconfirmed (tentative) track with a
drawable box, `draw_tracking_info` draws nothing for it — no rectangle
and no ID label are emitted, its identity is not added to `active_ids`,
and the rendered counters are both 0 — contradicting the claim that some
code path draws boxes for unconfirmed tracks. -/
theorem c9_counterexample :
    draw_tracking_info [trkTent] ∅ ∅
      = (∅, [DrawEvent.peopleCount 0, DrawEvent.totalUnique 0])
    ∧ trkTent.is_confirmed = false :=
  ⟨by with_unfolding_all rfl, by decide⟩

/-- C9 (amended): the drawing path filters exactly like the counting
path: `draw_tracking_info` skips every track that is not confirmed before
drawing, so each emitted rectangle and ID label belongs to a confirmed
track in the input list, and the counting fold adds exactly the confirmed
identities — unconfirmed tracks are neither drawn nor counted in any code
path. -/
theorem c9_draw_filters_unconfirmed :
    (∀ (tracks : List DSTrack) (a u : Finset ℕ) (tid : Nat) (x1 y1 x2 y2 : Int),
        DrawEvent.rect tid x1 y1 x2 y2 ∈ (draw_tracking_info tracks a u).2 →
        ∃ trk ∈ tracks, trk.track_id = tid ∧ trk.is_confirmed = true)
    ∧ (∀ (tracks : List DSTrack) (a u : Finset ℕ) (tid : Nat) (x y : Int),
        DrawEvent.idLabel tid x y ∈ (draw_tracking_info tracks a u).2 →
        ∃ trk ∈ tracks, trk.track_id = tid ∧ trk.is_confirmed = true)
    ∧ (∀ (tracks : List DSTrack) (a u : Finset ℕ),
        (draw_tracking_info tracks a u).1 = a ∪ (confirmedIds tracks).toFinset)
    ∧ (∀ (t : ℚ) (st : LoopState) (inp : FrameInput),
        (stepFrame t st inp).unique_ids
          = st.unique_ids ∪ (confirmedIds (stepTracks t st inp)).toFinset) := by
  refine ⟨?_, ?_, ?_, ?_⟩
  · intro tracks a u tid x1 y1 x2 y2 h
    rw [draw_tracking_info_eq, List.mem_append] at h
    rcases h with h | h
    · rcases mem_boxEvents h with ⟨trk, htrk, hconf, a1, b1, c1, d1, _, heq | heq⟩
      · injection heq with h1
        exact ⟨trk, htrk, h1.symm, hconf⟩
      · exact DrawEvent.noConfusion heq
    · simp at h
  · intro tracks a u tid x y h
    rw [draw_tracking_info_eq, List.mem_append] at h
    rcases h with h | h
    · rcases mem_boxEvents h with ⟨trk, htrk, hconf, a1, b1, c1, d1, _, heq | heq⟩
      · exact DrawEvent.noConfusion heq
      · injection heq with h1
        exact ⟨trk, htrk, h1.symm, hconf⟩
    · simp at h
  · intro tracks a u
    rw [draw_tracking_info_eq, foldIds_eq_union]
  · intro t st inp
    rw [stepFrame_unique, stepUnique_eq_union]

/-- C9 witness: the confirmed-only drawing and counting clauses evaluated
on a concrete confirmed track. -/
theorem c9_draw_filters_unconfirmed_witness :
    (∃ trk ∈ [trkConf6], trk.track_id = 1 ∧ trk.is_confirmed = true)
    ∧ (∃ trk ∈ [trkConf6], trk.track_id = 1 ∧ trk.is_confirmed = true)
    ∧ (draw_tracking_info [trkTent] ∅ ∅).1 = ∅ ∪ (confirmedIds [trkTent]).toFinset
    ∧ (stepFrame (1/2) stConf inpMatch).unique_ids
        = stConf.unique_ids ∪ (confirmedIds (stepTracks (1/2) stConf inpMatch)).toFinset := by
  refine ⟨c9_draw_filters_unconfirmed.1 [trkConf6] ∅ ∅ 1 0 0 2 2 ?_,
    c9_draw_filters_unconfirmed.2.1 [trkConf6] ∅ ∅ 1 0 (-10) ?_,
    c9_draw_filters_unconfirmed.2.2.1 [trkTent] ∅ ∅,
    c9_draw_filters_unconfirmed.2.2.2 (1/2) stConf inpMatch⟩
  · rw [show (draw_tracking_info [trkConf6] ∅ ∅).2
        = [DrawEvent.rect 1 0 0 2 2, DrawEvent.idLabel 1 0 (-10),
           DrawEvent.peopleCount 1, DrawEvent.totalUnique 0] from by
      with_unfolding_all rfl]
    simp
  · rw [show (draw_tracking_info [trkConf6] ∅ ∅).2
        = [DrawEvent.rect 1 0 0 2 2, DrawEvent.idLabel 1 0 (-10),
           DrawEvent.peopleCount 1, DrawEvent.totalUnique 0] from by
      with_unfolding_all rfl]
    simp

/-- C10: for every frame of a `process_video` run, the `People Count:`
value rendered on that frame equals the number of confirmed tracks of
that frame: the orchestrator hands `draw_tracking_info` a freshly emptied
`active_ids` set each frame, the drawing loop inserts exactly the
confirmed identities into it, and since track identities are pairwise
distinct the size of that set is the number of confirmed tracks — no
identity carries over from earlier frames. -/
theorem c10_people_count :
    ∀ (t : ℚ) (frames : List FrameInput) (k : Nat), k < frames.length →
      renderedCount ((videoRunState t frames).logs.getD k [])
        = some ((confirmedIds (frameTracksAt t frames k)).toFinset.card)
      ∧ (confirmedIds (frameTracksAt t frames k)).toFinset.card
        = (confirmedIds (frameTracksAt t frames k)).length := by
  intro t frames k hk
  constructor
  · rw [videoRunState_logs_at t frames k hk]
    exact stepEvents_renderedCount t (videoRunState t (frames.take k)) (frames.getD k noFrame)
  · exact confirmedIds_toFinset_card (frameTracksAt_ids_nodup t frames k)

/-- C10 witness: the rendered people count of frame 0 of a concrete
one-frame run. -/
theorem c10_people_count_witness :
    renderedCount ((videoRunState (1/2) [inpNew]).logs.getD 0 [])
      = some ((confirmedIds (frameTracksAt (1/2) [inpNew] 0)).toFinset.card)
    ∧ (confirmedIds (frameTracksAt (1/2) [inpNew] 0)).toFinset.card
      = (confirmedIds (frameTracksAt (1/2) [inpNew] 0)).length :=
  c10_people_count (1/2) [inpNew] 0 (by simp)
